import Mathlib

/-!
# Verification of the STK-push loan-repayment payment state machine

Shallow embedding of the payment controller of the `Kirogo/Collects`
repository (`controllers/paymentController.js`, the Mongoose version wired
into `routes/paymentRoutes.js`, together with the `Transaction` model's
static receipt generator and the phone-number helper).

Modelling conventions:
* JS strings are Lean `String`s; character-level operations work on
  `String.data` (the list of characters), matching JS code-unit indexing
  for the ASCII data handled here.
* Money amounts (JS numbers) are embedded as rationals `ℚ`; the claims
  under verification only use exact subtraction, addition, `max` and
  order comparisons.
* `new Date()` timestamps and `Math.random()` draws are passed in as an
  explicit environment (`PinEnv`, `InitEnv`); the controller is otherwise
  a pure state transformer `DB → result × DB`.
* A Mongoose session that commits both the transaction write and the
  customer write is embedded as a single step producing the new `DB`.
* Fields not touched by any verified property (mongoose `_id`s,
  `stkPushResponse`, `callbackData`, `customerInternalId`,
  `transactionInternalId`, `createdAt`) are omitted from the record types.
-/

/-- Transaction lifecycle status, from the `status` enum of the
`Transaction` schema: `['PENDING', 'SUCCESS', 'FAILED', 'CANCELLED']`. -/
inductive Status where
  | PENDING
  | SUCCESS
  | FAILED
  | CANCELLED
deriving DecidableEq

/-- JS `String.prototype.toLowerCase` applied to a status string, as used
in the message `` `Transaction already ${transaction.status.toLowerCase()}` ``. -/
def statusToLower : Status → String
  | Status.PENDING => "pending"
  | Status.SUCCESS => "success"
  | Status.FAILED => "failed"
  | Status.CANCELLED => "cancelled"

/-- Customer record (fields of the `Customer` model read or written by the
payment controller). -/
structure Customer where
  id : Nat
  phoneNumber : String
  name : String
  loanBalance : ℚ
  arrears : ℚ
  totalRepayments : ℚ
  lastPaymentDate : Option Nat
  isActive : Bool
  updatedAt : Nat
deriving DecidableEq

/-- Transaction record (fields of the `Transaction` model read or written
by the payment controller). `mpesaReceiptNumber` is the empty string until
set on success, matching the sparse schema field. -/
structure Transaction where
  transactionId : String
  customerId : Nat
  phoneNumber : String
  amount : ℚ
  description : String
  status : Status
  loanBalanceBefore : ℚ
  loanBalanceAfter : ℚ
  arrearsBefore : ℚ
  arrearsAfter : ℚ
  paymentMethod : String
  initiatedBy : String
  mpesaReceiptNumber : String
  pinAttempts : Nat
  errorMessage : Option String
  processedAt : Option Nat
  updatedAt : Nat
deriving DecidableEq

/-- The persistent store: the `customers` and `transactions` collections. -/
structure DB where
  customers : List Customer
  transactions : List Transaction
deriving DecidableEq

/-- Replace the first element satisfying `p` by its image under `f`,
leaving everything else unchanged.  This is how a Mongoose
`findOne` + `save` pair acts on a collection. -/
def updateFirst (p : α → Bool) (f : α → α) : List α → List α
  | [] => []
  | x :: xs => if p x then f x :: xs else x :: updateFirst p f xs

/-- Decimal digit character for `n % 10`-sized values, the digits JS
`Number.prototype.toString` emits. -/
def digitChar (n : Nat) : Char :=
  match n with
  | 0 => '0' | 1 => '1' | 2 => '2' | 3 => '3' | 4 => '4'
  | 5 => '5' | 6 => '6' | 7 => '7' | 8 => '8' | _ => '9'

/-- Fuel-driven decimal expansion of a natural number (most significant
digit first); with fuel `> n` it is JS `n.toString()` for a natural `n`. -/
def natDigitsAux : Nat → Nat → List Char
  | 0, _ => []
  | fuel + 1, n =>
    if n < 10 then [digitChar n]
    else natDigitsAux fuel (n / 10) ++ [digitChar (n % 10)]

/-- Decimal digit list of a natural number, i.e. JS `n.toString()`. -/
def natDigits (n : Nat) : List Char := natDigitsAux (n + 1) n

/-- JS `String.prototype.padStart(width, c)` on a character list. -/
def padStartL (width : Nat) (c : Char) (l : List Char) : List Char :=
  List.replicate (width - l.length) c ++ l

/-- JS `String.prototype.slice(-width)` on a character list: the last
`width` characters (the whole list if shorter). -/
def takeRightL (width : Nat) (l : List Char) : List Char :=
  l.drop (l.length - width)

/-- `formatPhoneNumber` from the payment controller, on character lists:

    if (phone.startsWith('0'))         return '254' + phone.substring(1);
    else if (phone.startsWith('254'))  return phone;
    else if (phone.startsWith('+254')) return phone.substring(1);
    else                               return '254' + phone;
-/
def formatPhoneNumberL (phone : List Char) : List Char :=
  if ['0'].isPrefixOf phone then ['2', '5', '4'] ++ phone.drop 1
  else if ['2', '5', '4'].isPrefixOf phone then phone
  else if ['+', '2', '5', '4'].isPrefixOf phone then phone.drop 1
  else ['2', '5', '4'] ++ phone

/-- `formatPhoneNumber` on strings. -/
def formatPhoneNumber (phone : String) : String :=
  ⟨formatPhoneNumberL phone.data⟩

/-- The PIN format rule of `processPin`: `/^\d{4,6}$/.test(pin)` — the
whole string is four to six decimal digits. -/
def isValidPin (pin : String) : Bool :=
  decide (4 ≤ pin.data.length) && decide (pin.data.length ≤ 6) &&
    pin.data.all (fun c => c.isDigit)

/-- The PIN format rule as the specification words it: the submitted code
matches the regular expression `^\d{4,6}$`, i.e. it consists of four to
six decimal digits.  Stated independently of `isValidPin` so the two can
be compared. -/
def matchesPinPattern (pin : String) : Prop :=
  4 ≤ pin.data.length ∧ pin.data.length ≤ 6 ∧
    ∀ c ∈ pin.data, c.isDigit = true

instance (pin : String) : Decidable (matchesPinPattern pin) := by
  unfold matchesPinPattern; infer_instance

/-- Modelled from the spec: `isValidKenyanPhone` lives in
`utils/helpers.js`, which is not part of the provided sources (only its
callers are).  Per the spec a canonical phone number is "E.164-like,
country-code-prefixed, no leading `+` or `0`": the Kenyan country code
`254` followed by nine digits, twelve digits in all. -/
def isValidKenyanPhone (phone : String) : Bool :=
  decide (phone.data.length = 12) &&
    ['2', '5', '4'].isPrefixOf phone.data &&
    phone.data.all (fun c => c.isDigit)

/-- The post-payment balance computation used at initiation
(`paymentController.js`: `newLoanBalance = customer.loanBalance - amountNum;
newArrears = Math.max(0, customer.arrears - amountNum)`, also the
`calculateNewBalances` helper the Mongoose controller imports). -/
def calculateNewBalances (customer : Customer) (amount : ℚ) : ℚ × ℚ :=
  (customer.loanBalance - amount, max 0 (customer.arrears - amount))

/-- `Transaction.generateMpesaReceiptNumber`:

    dateStr = year.toString().slice(-2)
            + (month+1).toString().padStart(2,'0')
            + day.toString().padStart(2,'0');
    random  = Math.floor(Math.random()*100000).toString().padStart(5,'0');
    return `MC${dateStr}${random}`;

`year`/`month`/`day` are the JS `Date` components (month 0-based) and
`rand` the random draw `< 100000`, both supplied by the environment. -/
def generateMpesaReceiptNumber (year month day rand : Nat) : String :=
  ⟨['M', 'C'] ++
    (takeRightL 2 (natDigits year) ++
     padStartL 2 '0' (natDigits (month + 1)) ++
     padStartL 2 '0' (natDigits day)) ++
    padStartL 5 '0' (natDigits rand)⟩

/-- Environment for `processPin`: the wall clock (`new Date()` components)
and the random draw feeding the receipt generator. -/
structure PinEnv where
  now : Nat
  year : Nat
  month : Nat
  day : Nat
  rand : Nat
deriving DecidableEq

/-- The environment values a JS `Date` / `Math.random()` actually
produces: a four-digit-era year, a 0-based month, a day of month, and a
random draw below `100000`. -/
def PinEnv.valid (e : PinEnv) : Prop :=
  10 ≤ e.year ∧ e.month ≤ 11 ∧ e.day ≤ 31 ∧ e.rand < 100000

instance (e : PinEnv) : Decidable e.valid := by
  unfold PinEnv.valid; infer_instance

/-- Outcome of a `processPin` call, one constructor per response of the
controller. -/
inductive PinResult where
  | validationError
  | notFound
  | invalidState (currentStatus : Status)
  | attemptsExceeded
  | customerNotFound
  | paymentSuccess (receipt : String) (amount newLoanBalance newArrears : ℚ)
  | invalidPin (attemptsLeft : Nat)
deriving DecidableEq

/-- The `message` field of the JSON response for each `processPin`
outcome. -/
def pinResultMessage : PinResult → String
  | PinResult.validationError => "Please provide transaction ID and PIN"
  | PinResult.notFound => "Transaction not found"
  | PinResult.invalidState s => "Transaction already " ++ statusToLower s
  | PinResult.attemptsExceeded =>
      "Maximum PIN attempts exceeded. Transaction failed."
  | PinResult.customerNotFound => "Customer not found"
  | PinResult.paymentSuccess _ _ _ _ => "Payment successful!"
  | PinResult.invalidPin n =>
      if 0 < n then
        "Invalid MPesa PIN. You have " ++ (⟨natDigits n⟩ : String) ++
          " attempt(s) left."
      else "Invalid MPesa PIN. Maximum attempts exceeded."

/-- HTTP status code of the response for each `processPin` outcome. -/
def pinHttpStatus : PinResult → Nat
  | PinResult.validationError => 400
  | PinResult.notFound => 404
  | PinResult.invalidState _ => 400
  | PinResult.attemptsExceeded => 400
  | PinResult.customerNotFound => 404
  | PinResult.paymentSuccess _ _ _ _ => 200
  | PinResult.invalidPin _ => 400

/-- `processPin` from the Mongoose payment controller, as a state
transformer.  Empty strings model missing `req.body` fields (JS
falsiness of `''`). -/
def processPin (db : DB) (transactionId pin : String) (env : PinEnv) :
    PinResult × DB :=
  if transactionId = "" ∨ pin = "" then (PinResult.validationError, db)
  else
    match db.transactions.find? (fun t => t.transactionId == transactionId) with
    | none => (PinResult.notFound, db)
    | some t =>
      if t.status ≠ Status.PENDING then (PinResult.invalidState t.status, db)
      else if 3 ≤ t.pinAttempts then
        (PinResult.attemptsExceeded,
          { db with
            transactions :=
              updateFirst (fun u => u.transactionId == transactionId)
                (fun u =>
                  { u with
                    status := Status.FAILED
                    errorMessage := some "Maximum PIN attempts exceeded"
                    updatedAt := env.now })
                db.transactions })
      else
        match db.customers.find? (fun c => c.id == t.customerId) with
        | none => (PinResult.customerNotFound, db)
        | some _c =>
          if isValidPin pin then
            let receipt :=
              generateMpesaReceiptNumber env.year env.month env.day env.rand
            (PinResult.paymentSuccess receipt t.amount
                t.loanBalanceAfter t.arrearsAfter,
              { customers :=
                  updateFirst (fun u => u.id == t.customerId)
                    (fun u =>
                      { u with
                        loanBalance := t.loanBalanceAfter
                        arrears := t.arrearsAfter
                        totalRepayments := u.totalRepayments + t.amount
                        lastPaymentDate := some env.now
                        updatedAt := env.now })
                    db.customers
                transactions :=
                  updateFirst (fun u => u.transactionId == transactionId)
                    (fun u =>
                      { u with
                        status := Status.SUCCESS
                        mpesaReceiptNumber := receipt
                        processedAt := some env.now
                        updatedAt := env.now
                        pinAttempts := u.pinAttempts + 1 })
                    db.transactions })
          else
            (PinResult.invalidPin (3 - (t.pinAttempts + 1)),
              { db with
                transactions :=
                  updateFirst (fun u => u.transactionId == transactionId)
                    (fun u =>
                      if 3 ≤ u.pinAttempts + 1 then
                        { u with
                          pinAttempts := u.pinAttempts + 1
                          updatedAt := env.now
                          status := Status.FAILED
                          errorMessage := some "Maximum PIN attempts exceeded" }
                      else
                        { u with
                          pinAttempts := u.pinAttempts + 1
                          updatedAt := env.now })
                    db.transactions })

/-- Outcome of a `cancelTransaction` call. -/
inductive CancelResult where
  | pendingNotFound
  | cancelled (t : Transaction)
deriving DecidableEq

/-- The `message` field of the JSON response for each `cancelTransaction`
outcome. -/
def cancelResultMessage : CancelResult → String
  | CancelResult.pendingNotFound =>
      "Pending transaction not found or already processed"
  | CancelResult.cancelled _ => "Transaction cancelled successfully"

/-- HTTP status code for each `cancelTransaction` outcome. -/
def cancelHttpStatus : CancelResult → Nat
  | CancelResult.pendingNotFound => 404
  | CancelResult.cancelled _ => 200

/-- `cancelTransaction` from the payment controller: finds the first
transaction with the given id *and* status `PENDING`
(`Transaction.findOne({ transactionId, status: 'PENDING' })`), responds
404 when there is none, and otherwise marks it cancelled. -/
def cancelTransaction (db : DB) (transactionId : String) (now : Nat) :
    CancelResult × DB :=
  match db.transactions.find?
      (fun t => t.transactionId == transactionId &&
        decide (t.status = Status.PENDING)) with
  | none => (CancelResult.pendingNotFound, db)
  | some t =>
    (CancelResult.cancelled
        { t with
          status := Status.CANCELLED
          updatedAt := now
          errorMessage := some "Cancelled by administrator" },
      { db with
        transactions :=
          updateFirst
            (fun u => u.transactionId == transactionId &&
              decide (u.status = Status.PENDING))
            (fun u =>
              { u with
                status := Status.CANCELLED
                updatedAt := now
                errorMessage := some "Cancelled by administrator" })
            db.transactions })

/-- Environment for `initiateSTKPush`: the generated external transaction
id, the wall clock, and the authenticated staff user. -/
structure InitEnv where
  txId : String
  now : Nat
  username : String
deriving DecidableEq

/-- Outcome of an `initiateSTKPush` call, one constructor per response of
the controller. -/
inductive InitResult where
  | missingInput
  | invalidAmount
  | invalidPhone
  | notFound
  | balanceError
  | initiated (t : Transaction)
deriving DecidableEq

/-- Discriminator: did `initiateSTKPush` create a transaction? -/
def InitResult.isInitiated : InitResult → Bool
  | InitResult.initiated _ => true
  | _ => false

/-- The `PENDING` transaction record `initiateSTKPush` inserts
(`Transaction.create` with the snapshot from `calculateNewBalances`). -/
def mkPendingTransaction (customer : Customer) (amountNum : ℚ)
    (description phoneNumber : String) (env : InitEnv) : Transaction :=
  { transactionId := env.txId
    customerId := customer.id
    phoneNumber := phoneNumber
    amount := amountNum
    description := description
    status := Status.PENDING
    loanBalanceBefore := customer.loanBalance
    loanBalanceAfter := (calculateNewBalances customer amountNum).1
    arrearsBefore := customer.arrears
    arrearsAfter := (calculateNewBalances customer amountNum).2
    paymentMethod := "MPESA"
    initiatedBy := env.username
    mpesaReceiptNumber := ""
    pinAttempts := 0
    errorMessage := none
    processedAt := none
    updatedAt := env.now }

/-- `initiateSTKPush` from the Mongoose payment controller.
`amountProvided` is the JS truthiness of the raw `req.body.amount` (a
JSON `0` or missing field is falsy); `amount` is the `parseFloat` result,
`none` when it is `NaN`. -/
def initiateSTKPush (db : DB) (phoneNumber : String)
    (amountProvided : Bool) (amount : Option ℚ) (description : String)
    (env : InitEnv) : InitResult × DB :=
  if phoneNumber = "" ∨ amountProvided = false then
    (InitResult.missingInput, db)
  else
    match amount with
    | none => (InitResult.invalidAmount, db)
    | some amountNum =>
      if amountNum ≤ 0 then (InitResult.invalidAmount, db)
      else
        if ¬ isValidKenyanPhone (formatPhoneNumber phoneNumber) then
          (InitResult.invalidPhone, db)
        else
          match db.customers.find?
              (fun c => c.phoneNumber == formatPhoneNumber phoneNumber &&
                c.isActive) with
          | none => (InitResult.notFound, db)
          | some customer =>
            if customer.loanBalance < amountNum then
              (InitResult.balanceError, db)
            else
              (InitResult.initiated
                  (mkPendingTransaction customer amountNum description
                    (formatPhoneNumber phoneNumber) env),
                { db with
                  transactions := db.transactions ++
                    [mkPendingTransaction customer amountNum description
                      (formatPhoneNumber phoneNumber) env] })

/-! ## Helper lemmas about `updateFirst` -/

theorem find?_updateFirst (p : α → Bool) (f : α → α) :
    ∀ (l : List α) (x : α), l.find? p = some x →
      ∃ i, l.get? i = some x ∧ updateFirst p f l = l.set i (f x) := by
  intro l
  induction l with
  | nil => intro x h; simp [List.find?] at h
  | cons a as ih =>
    intro x h
    by_cases hp : p a = true
    · rw [List.find?_cons_of_pos _ hp] at h
      cases h
      exact ⟨0, rfl, by simp [updateFirst, hp]⟩
    · rw [List.find?_cons_of_neg _ hp] at h
      obtain ⟨i, hg, hu⟩ := ih x h
      exact ⟨i + 1, hg, by simp [updateFirst, hp, hu]⟩

theorem find?_updateFirst_self (p : α → Bool) (f : α → α) :
    ∀ (l : List α) (x : α), l.find? p = some x → p (f x) = true →
      (updateFirst p f l).find? p = some (f x) := by
  intro l
  induction l with
  | nil => intro x h _; simp [List.find?] at h
  | cons a as ih =>
    intro x h hpf
    by_cases hp : p a = true
    · rw [List.find?_cons_of_pos _ hp] at h
      cases h
      simp only [updateFirst, hp, if_true]
      exact List.find?_cons_of_pos _ hpf
    · rw [List.find?_cons_of_neg _ hp] at h
      simp only [updateFirst, hp, if_false, Bool.false_eq_true]
      rw [List.find?_cons_of_neg _ hp]
      exact ih x h hpf

theorem updateFirst_get?_cases (p : α → Bool) (f : α → α) :
    ∀ (l : List α) (j : Nat) (u : α), l.get? j = some u →
      (updateFirst p f l).get? j = some u ∨
        ((updateFirst p f l).get? j = some (f u) ∧ p u = true ∧
          l.find? p = some u) := by
  intro l
  induction l with
  | nil => intro j u h; simp at h
  | cons a as ih =>
    intro j u h
    by_cases hp : p a = true
    · cases j with
      | zero =>
        simp only [List.get?] at h
        cases h
        exact Or.inr ⟨by simp [updateFirst, hp], hp,
          List.find?_cons_of_pos _ hp⟩
      | succ j => exact Or.inl (by simpa [updateFirst, hp] using h)
    · cases j with
      | zero => exact Or.inl (by simpa [updateFirst, hp] using h)
      | succ j =>
        simp only [List.get?] at h
        rcases ih j u h with h1 | ⟨h1, h2, h3⟩
        · exact Or.inl (by simpa [updateFirst, hp] using h1)
        · exact Or.inr ⟨by simpa [updateFirst, hp] using h1, h2, by
            rw [List.find?_cons_of_neg _ hp]; exact h3⟩

/-! ## Helper lemmas about decimal digit rendering -/

theorem digitChar_isDigit (n : Nat) : (digitChar n).isDigit = true := by
  unfold digitChar
  split <;> decide

theorem natDigitsAux_digits :
    ∀ (fuel n : Nat), n < fuel → ∀ c ∈ natDigitsAux fuel n, c.isDigit = true := by
  intro fuel
  induction fuel with
  | zero => intro n h; omega
  | succ fuel ih =>
    intro n h c hc
    by_cases h10 : n < 10
    · simp only [natDigitsAux, if_pos h10, List.mem_singleton] at hc
      exact hc ▸ digitChar_isDigit n
    · simp only [natDigitsAux, if_neg h10, List.mem_append,
        List.mem_singleton] at hc
      rcases hc with hc | hc
      · exact ih (n / 10) (by omega) c hc
      · exact hc ▸ digitChar_isDigit (n % 10)

theorem natDigitsAux_ne_nil :
    ∀ (fuel n : Nat), n < fuel → natDigitsAux fuel n ≠ [] := by
  intro fuel
  cases fuel with
  | zero => intro n h; omega
  | succ fuel =>
    intro n _ hnil
    by_cases h10 : n < 10
    · simp [natDigitsAux, if_pos h10] at hnil
    · simp [natDigitsAux, if_neg h10] at hnil

theorem natDigitsAux_length_le :
    ∀ (fuel n k : Nat), n < fuel → n < 10 ^ k → 1 ≤ k →
      (natDigitsAux fuel n).length ≤ k := by
  intro fuel
  induction fuel with
  | zero => intro n k h; omega
  | succ fuel ih =>
    intro n k hfuel hk h1
    by_cases h10 : n < 10
    · simp only [natDigitsAux, if_pos h10, List.length_singleton]
      omega
    · have hk2 : 2 ≤ k := by
        by_contra hlt
        have : k = 1 := by omega
        subst this
        simp only [pow_one] at hk
        omega
      have hdiv : n / 10 < 10 ^ (k - 1) := by
        have h0 : (10 : Nat) ^ k = 10 ^ (k - 1) * 10 := by
          have hkk : k - 1 + 1 = k := by omega
          calc (10 : Nat) ^ k = 10 ^ (k - 1 + 1) := by rw [hkk]
            _ = 10 ^ (k - 1) * 10 := pow_succ 10 (k - 1)
        exact (Nat.div_lt_iff_lt_mul (by omega : 0 < 10)).mpr (by omega)
      simp only [natDigitsAux, if_neg h10, List.length_append,
        List.length_singleton]
      have := ih (n / 10) (k - 1) (by omega) hdiv (by omega)
      omega

theorem natDigitsAux_length_ge_two :
    ∀ (fuel n : Nat), n < fuel → 10 ≤ n → 2 ≤ (natDigitsAux fuel n).length := by
  intro fuel
  cases fuel with
  | zero => intro n h; omega
  | succ fuel =>
    intro n hfuel h10
    simp only [natDigitsAux, if_neg (by omega : ¬ n < 10), List.length_append,
      List.length_singleton]
    have hne := natDigitsAux_ne_nil fuel (n / 10)
      (by
        have : n / 10 < n := Nat.div_lt_self (by omega) (by omega)
        omega)
    have : 1 ≤ (natDigitsAux fuel (n / 10)).length := by
      cases hlen : (natDigitsAux fuel (n / 10)).length with
      | zero => exact absurd (List.length_eq_zero.mp hlen) hne
      | succ m => omega
    omega

theorem natDigits_digits (n : Nat) : ∀ c ∈ natDigits n, c.isDigit = true :=
  natDigitsAux_digits (n + 1) n (by omega)

theorem natDigits_length_le (n k : Nat) (hk : n < 10 ^ k) (h1 : 1 ≤ k) :
    (natDigits n).length ≤ k :=
  natDigitsAux_length_le (n + 1) n k (by omega) hk h1

theorem natDigits_length_ge_two (n : Nat) (h : 10 ≤ n) :
    2 ≤ (natDigits n).length :=
  natDigitsAux_length_ge_two (n + 1) n (by omega) h

/-! ## Helper lemmas about padding and right-slicing -/

theorem padStartL_length (width : Nat) (c : Char) (l : List Char) :
    (padStartL width c l).length = max width l.length := by
  simp only [padStartL, List.length_append, List.length_replicate]
  omega

theorem padStartL_digits (width : Nat) (l : List Char)
    (hl : ∀ x ∈ l, x.isDigit = true) :
    ∀ x ∈ padStartL width '0' l, x.isDigit = true := by
  intro x hx
  simp only [padStartL, List.mem_append] at hx
  rcases hx with hx | hx
  · have := List.eq_of_mem_replicate hx
    subst this; decide
  · exact hl x hx

theorem takeRightL_length (width : Nat) (l : List Char) :
    (takeRightL width l).length = min width l.length := by
  simp only [takeRightL, List.length_drop]
  omega

theorem takeRightL_digits (width : Nat) (l : List Char)
    (hl : ∀ x ∈ l, x.isDigit = true) :
    ∀ x ∈ takeRightL width l, x.isDigit = true := by
  intro x hx
  exact hl x (List.mem_of_mem_drop hx)

/-- Structure of a generated receipt: the two-character `MC` prefix, a
six-digit date block and a five-digit random block. -/
theorem generateMpesaReceiptNumber_format (year month day rand : Nat)
    (hyear : 10 ≤ year) (hmonth : month ≤ 11) (hday : day ≤ 31)
    (hrand : rand < 100000) :
    ∃ d r, (generateMpesaReceiptNumber year month day rand).data =
        'M' :: 'C' :: (d ++ r) ∧
      d.length = 6 ∧ r.length = 5 ∧
      (∀ c ∈ d, c.isDigit = true) ∧ (∀ c ∈ r, c.isDigit = true) := by
  refine ⟨takeRightL 2 (natDigits year) ++
      padStartL 2 '0' (natDigits (month + 1)) ++
      padStartL 2 '0' (natDigits day),
    padStartL 5 '0' (natDigits rand), ?_, ?_, ?_, ?_, ?_⟩
  · simp [generateMpesaReceiptNumber]
  · have h1 : (takeRightL 2 (natDigits year)).length = 2 := by
      rw [takeRightL_length]
      have := natDigits_length_ge_two year hyear
      omega
    have h2 : (padStartL 2 '0' (natDigits (month + 1))).length = 2 := by
      rw [padStartL_length]
      have := natDigits_length_le (month + 1) 2 (by omega) (by omega)
      omega
    have h3 : (padStartL 2 '0' (natDigits day)).length = 2 := by
      rw [padStartL_length]
      have := natDigits_length_le day 2 (by omega) (by omega)
      omega
    simp [List.length_append, h1, h2, h3]
  · rw [padStartL_length]
    have := natDigits_length_le rand 5 (by omega) (by omega)
    omega
  · intro c hc
    simp only [List.mem_append] at hc
    rcases hc with (hc | hc) | hc
    · exact takeRightL_digits 2 _ (natDigits_digits year) c hc
    · exact padStartL_digits 2 _ (natDigits_digits (month + 1)) c hc
    · exact padStartL_digits 2 _ (natDigits_digits day) c hc
  · exact padStartL_digits 5 _ (natDigits_digits rand)

/-! ## Helper lemmas about `formatPhoneNumberL` -/

theorem formatPhoneNumberL_prefix254 (l : List Char) :
    ['2', '5', '4'].isPrefixOf (formatPhoneNumberL l) = true := by
  unfold formatPhoneNumberL
  split
  · exact List.isPrefixOf_iff_prefix.mpr ⟨l.drop 1, rfl⟩
  · split
    · assumption
    · split
      · rename_i h
        obtain ⟨t, ht⟩ := List.isPrefixOf_iff_prefix.mp h
        rw [← ht]
        exact List.isPrefixOf_iff_prefix.mpr ⟨t, rfl⟩
      · exact List.isPrefixOf_iff_prefix.mpr ⟨l, rfl⟩

theorem formatPhoneNumberL_of_prefix254 (l : List Char)
    (h : ['2', '5', '4'].isPrefixOf l = true) : formatPhoneNumberL l = l := by
  obtain ⟨t, ht⟩ := List.isPrefixOf_iff_prefix.mp h
  subst ht
  unfold formatPhoneNumberL
  rw [if_neg (by simp [List.isPrefixOf]), if_pos h]

theorem formatPhoneNumberL_idem (l : List Char) :
    formatPhoneNumberL (formatPhoneNumberL l) = formatPhoneNumberL l :=
  formatPhoneNumberL_of_prefix254 _ (formatPhoneNumberL_prefix254 l)

/-! ## Branch equations for `processPin` -/

theorem processPin_notFound_eq (db : DB) (tid pin : String) (env : PinEnv)
    (htid : tid ≠ "") (hpin : pin ≠ "")
    (hfind : db.transactions.find? (fun u => u.transactionId == tid) = none) :
    processPin db tid pin env = (PinResult.notFound, db) := by
  unfold processPin
  rw [if_neg (by simp [htid, hpin]), hfind]

theorem processPin_invalidState_eq (db : DB) (tid pin : String) (env : PinEnv)
    (t : Transaction) (htid : tid ≠ "") (hpin : pin ≠ "")
    (hfind : db.transactions.find? (fun u => u.transactionId == tid) = some t)
    (hstatus : t.status ≠ Status.PENDING) :
    processPin db tid pin env = (PinResult.invalidState t.status, db) := by
  unfold processPin
  rw [if_neg (by simp [htid, hpin]), hfind]
  simp [hstatus]

theorem processPin_attemptsExceeded_eq (db : DB) (tid pin : String)
    (env : PinEnv) (t : Transaction) (htid : tid ≠ "") (hpin : pin ≠ "")
    (hfind : db.transactions.find? (fun u => u.transactionId == tid) = some t)
    (hstatus : t.status = Status.PENDING) (hatt : 3 ≤ t.pinAttempts) :
    processPin db tid pin env =
      (PinResult.attemptsExceeded,
        { db with
          transactions :=
            updateFirst (fun u => u.transactionId == tid)
              (fun u =>
                { u with
                  status := Status.FAILED
                  errorMessage := some "Maximum PIN attempts exceeded"
                  updatedAt := env.now })
              db.transactions }) := by
  unfold processPin
  rw [if_neg (by simp [htid, hpin]), hfind]
  simp [hstatus, hatt]

theorem processPin_mismatch_eq (db : DB) (tid pin : String) (env : PinEnv)
    (t : Transaction) (c : Customer) (htid : tid ≠ "") (hpin : pin ≠ "")
    (hfind : db.transactions.find? (fun u => u.transactionId == tid) = some t)
    (hstatus : t.status = Status.PENDING) (hatt : t.pinAttempts < 3)
    (hcust : db.customers.find? (fun u => u.id == t.customerId) = some c)
    (hbad : isValidPin pin = false) :
    processPin db tid pin env =
      (PinResult.invalidPin (3 - (t.pinAttempts + 1)),
        { db with
          transactions :=
            updateFirst (fun u => u.transactionId == tid)
              (fun u =>
                if 3 ≤ u.pinAttempts + 1 then
                  { u with
                    pinAttempts := u.pinAttempts + 1
                    updatedAt := env.now
                    status := Status.FAILED
                    errorMessage := some "Maximum PIN attempts exceeded" }
                else
                  { u with
                    pinAttempts := u.pinAttempts + 1
                    updatedAt := env.now })
              db.transactions }) := by
  unfold processPin
  rw [if_neg (by simp [htid, hpin]), hfind]
  simp [hstatus, hcust, hbad, (by omega : ¬ 3 ≤ t.pinAttempts)]
  exact hatt

theorem processPin_success_eq (db : DB) (tid pin : String) (env : PinEnv)
    (t : Transaction) (c : Customer) (htid : tid ≠ "") (hpin : pin ≠ "")
    (hfind : db.transactions.find? (fun u => u.transactionId == tid) = some t)
    (hstatus : t.status = Status.PENDING) (hatt : t.pinAttempts < 3)
    (hcust : db.customers.find? (fun u => u.id == t.customerId) = some c)
    (hgood : isValidPin pin = true) :
    processPin db tid pin env =
      (PinResult.paymentSuccess
          (generateMpesaReceiptNumber env.year env.month env.day env.rand)
          t.amount t.loanBalanceAfter t.arrearsAfter,
        { customers :=
            updateFirst (fun u => u.id == t.customerId)
              (fun u =>
                { u with
                  loanBalance := t.loanBalanceAfter
                  arrears := t.arrearsAfter
                  totalRepayments := u.totalRepayments + t.amount
                  lastPaymentDate := some env.now
                  updatedAt := env.now })
              db.customers
          transactions :=
            updateFirst (fun u => u.transactionId == tid)
              (fun u =>
                { u with
                  status := Status.SUCCESS
                  mpesaReceiptNumber :=
                    generateMpesaReceiptNumber env.year env.month env.day env.rand
                  processedAt := some env.now
                  updatedAt := env.now
                  pinAttempts := u.pinAttempts + 1 })
              db.transactions }) := by
  unfold processPin
  rw [if_neg (by simp [htid, hpin]), hfind]
  simp [hstatus, hcust, hgood, (by omega : ¬ 3 ≤ t.pinAttempts)]
  exact hatt

/-! ## Inversion of a successful `initiateSTKPush` -/

theorem initiateSTKPush_initiated_inv (db : DB) (phone : String) (ap : Bool)
    (amt : Option ℚ) (desc : String) (env : InitEnv) (t : Transaction)
    (db' : DB)
    (h : initiateSTKPush db phone ap amt desc env =
      (InitResult.initiated t, db')) :
    ∃ c a, amt = some a ∧ 0 < a ∧
      db.customers.find?
          (fun u => u.phoneNumber == formatPhoneNumber phone && u.isActive) =
        some c ∧
      a ≤ c.loanBalance ∧
      db' = { db with transactions := db.transactions ++ [t] } ∧
      t = mkPendingTransaction c a desc (formatPhoneNumber phone) env := by
  unfold initiateSTKPush at h
  split at h
  · simp at h
  · split at h
    · simp at h
    · rename_i a
      split at h
      · simp at h
      · split at h
        · simp at h
        · split at h
          · simp at h
          · rename_i hamt hphone c hc
            split at h
            · simp at h
            · rename_i hbal
              rw [Prod.mk.injEq] at h
              obtain ⟨h2, h3⟩ := h
              injection h2 with h2
              exact ⟨c, a, rfl, lt_of_not_le (by assumption),
                hc, le_of_not_lt hbal, by rw [h2] at h3; exact h3.symm,
                h2.symm⟩

/-! ## Concrete fixtures -/

/-- Sample active customer (one of the seeded test customers). -/
def cust0 : Customer :=
  { id := 1, phoneNumber := "254712345678", name := "John Kamau"
    loanBalance := 50000, arrears := 5000, totalRepayments := 0
    lastPaymentDate := none, isActive := true, updatedAt := 0 }

/-- A freshly initiated `PENDING` transaction for `cust0`. -/
def tx0 : Transaction :=
  { transactionId := "TXN1", customerId := 1, phoneNumber := "254712345678"
    amount := 20000, description := "Loan Repayment"
    status := Status.PENDING
    loanBalanceBefore := 50000, loanBalanceAfter := 30000
    arrearsBefore := 5000, arrearsAfter := 0
    paymentMethod := "MPESA", initiatedBy := "admin"
    mpesaReceiptNumber := "", pinAttempts := 0, errorMessage := none
    processedAt := none, updatedAt := 0 }

/-- Store holding `cust0` and the pending `tx0`. -/
def db0 : DB := { customers := [cust0], transactions := [tx0] }

/-- A sample clock/randomness environment (Oct 11 2024, draw 42). -/
def env0 : PinEnv := { now := 5, year := 2024, month := 9, day := 11, rand := 42 }

/-- A sample initiation environment. -/
def initEnv0 : InitEnv := { txId := "TXN2", now := 7, username := "admin" }

/-- The transaction `initiateSTKPush db0 "0712345678" … (amount 100)`
creates. -/
def tx1 : Transaction :=
  mkPendingTransaction cust0 100 "Loan Repayment" "254712345678" initEnv0

/-- The store after that initiation. -/
def db1 : DB := { customers := [cust0], transactions := [tx0, tx1] }

/-! ## Claim C7 -/

/-- **C7.**  For every customer snapshot and every amount, the
post-payment balance computation used at initiate satisfies
`newLoanBalance = loanBalance - amount` and
`newArrears = max 0 (arrears - amount)` (it is a Lean function, hence
pure and deterministic); moreover the transaction a successful
`initiateSTKPush` creates carries exactly this computation applied to
the customer it found. -/
theorem C7_balance_computation :
    (∀ (c : Customer) (a : ℚ),
      calculateNewBalances c a =
        (c.loanBalance - a, max 0 (c.arrears - a))) ∧
    (∀ (db : DB) (phone : String) (ap : Bool) (amt : Option ℚ)
        (desc : String) (env : InitEnv) (t : Transaction) (db' : DB),
      initiateSTKPush db phone ap amt desc env =
        (InitResult.initiated t, db') →
      ∃ c, db.customers.find?
            (fun u => u.phoneNumber == formatPhoneNumber phone &&
              u.isActive) = some c ∧
        (t.loanBalanceAfter, t.arrearsAfter) =
          calculateNewBalances c t.amount) := by
  refine ⟨fun c a => rfl, ?_⟩
  intro db phone ap amt desc env t db' h
  obtain ⟨c, a, -, -, hc, -, -, ht⟩ :=
    initiateSTKPush_initiated_inv db phone ap amt desc env t db' h
  exact ⟨c, hc, by subst ht; rfl⟩

/-- Witness for C7 at a concrete initiation. -/
theorem C7_balance_computation_witness :
    calculateNewBalances cust0 100 =
      (cust0.loanBalance - 100, max 0 (cust0.arrears - 100)) ∧
    ∃ c, db0.customers.find?
          (fun u => u.phoneNumber == formatPhoneNumber "0712345678" &&
            u.isActive) = some c ∧
      (tx1.loanBalanceAfter, tx1.arrearsAfter) =
        calculateNewBalances c tx1.amount :=
  ⟨C7_balance_computation.1 cust0 100,
    C7_balance_computation.2 db0 "0712345678" true (some 100)
      "Loan Repayment" initEnv0 tx1 db1 rfl⟩

/-! ## Claim C6 -/

/-- **C6.**  Every successful `initiateSTKPush` call leaves the customers
collection (hence the referenced customer's record) unchanged; the only
state change is appending one new transaction with `status = PENDING`,
`pinAttempts = 0`, and snapshot fields computed from the found
customer's current balances and the requested amount. -/
theorem C6_initiate_frame (db : DB) (phone : String) (ap : Bool)
    (amt : Option ℚ) (desc : String) (env : InitEnv) (t : Transaction)
    (db' : DB)
    (h : initiateSTKPush db phone ap amt desc env =
      (InitResult.initiated t, db')) :
    db'.customers = db.customers ∧
    db'.transactions = db.transactions ++ [t] ∧
    t.status = Status.PENDING ∧
    t.pinAttempts = 0 ∧
    ∃ c a, amt = some a ∧
      db.customers.find?
          (fun u => u.phoneNumber == formatPhoneNumber phone &&
            u.isActive) = some c ∧
      t.customerId = c.id ∧
      t.amount = a ∧
      t.loanBalanceBefore = c.loanBalance ∧
      t.arrearsBefore = c.arrears ∧
      t.loanBalanceAfter = c.loanBalance - a ∧
      t.arrearsAfter = max 0 (c.arrears - a) := by
  obtain ⟨c, a, ha, hpos, hc, hle, hdb, ht⟩ :=
    initiateSTKPush_initiated_inv db phone ap amt desc env t db' h
  subst hdb ht ha
  exact ⟨rfl, rfl, rfl, rfl, c, a, rfl, hc, rfl, rfl, rfl, rfl, rfl, rfl⟩

/-- Witness for C6 at a concrete initiation. -/
theorem C6_initiate_frame_witness :
    db1.customers = db0.customers ∧
    db1.transactions = db0.transactions ++ [tx1] ∧
    tx1.status = Status.PENDING ∧
    tx1.pinAttempts = 0 ∧
    ∃ c a, (some (100:ℚ) : Option ℚ) = some a ∧
      db0.customers.find?
          (fun u => u.phoneNumber == formatPhoneNumber "0712345678" &&
            u.isActive) = some c ∧
      tx1.customerId = c.id ∧
      tx1.amount = a ∧
      tx1.loanBalanceBefore = c.loanBalance ∧
      tx1.arrearsBefore = c.arrears ∧
      tx1.loanBalanceAfter = c.loanBalance - a ∧
      tx1.arrearsAfter = max 0 (c.arrears - a) :=
  C6_initiate_frame db0 "0712345678" true (some 100) "Loan Repayment"
    initEnv0 tx1 db1 rfl

/-! ## Claim C4 -/

/-- **C4.**  On a `PENDING` transaction below the attempt ceiling and with
an existing customer, `processPin` takes the success path exactly when the
submitted code matches `^\d{4,6}$` (four to six decimal digits); the
embedded test `isValidPin` agrees with the pattern on every string, and in
particular 5-digit and 6-digit all-digit codes are accepted. -/
theorem C4_pin_format_rule (db : DB) (tid pin : String) (env : PinEnv)
    (t : Transaction) (c : Customer) (htid : tid ≠ "")
    (hfind : db.transactions.find? (fun u => u.transactionId == tid) = some t)
    (hstatus : t.status = Status.PENDING) (hatt : t.pinAttempts < 3)
    (hcust : db.customers.find? (fun u => u.id == t.customerId) = some c) :
    ((∃ receipt amt nb na, (processPin db tid pin env).1 =
        PinResult.paymentSuccess receipt amt nb na) ↔ matchesPinPattern pin) ∧
    (isValidPin pin = true ↔ matchesPinPattern pin) ∧
    isValidPin "12345" = true ∧ isValidPin "123456" = true := by
  have hiff : isValidPin pin = true ↔ matchesPinPattern pin := by
    unfold isValidPin matchesPinPattern
    simp [List.all_eq_true, Bool.and_eq_true, decide_eq_true_iff, and_assoc]
  refine ⟨?_, hiff, by decide, by decide⟩
  constructor
  · rintro ⟨receipt, amt, nb, na, h⟩
    by_cases hpin : pin = ""
    · subst hpin
      unfold processPin at h
      rw [if_pos (Or.inr rfl)] at h
      simp at h
    · by_cases hv : isValidPin pin = true
      · exact hiff.mp hv
      · have hbad : isValidPin pin = false := by
          revert hv; cases isValidPin pin <;> simp
        rw [processPin_mismatch_eq db tid pin env t c htid hpin hfind hstatus
          hatt hcust hbad] at h
        simp at h
  · intro hm
    have hv := hiff.mpr hm
    have hpin : pin ≠ "" := by
      intro he
      subst he
      exact absurd hm.1 (by decide)
    rw [processPin_success_eq db tid pin env t c htid hpin hfind hstatus
      hatt hcust hv]
    exact ⟨_, _, _, _, rfl⟩

/-- Witness for C4 on the concrete store `db0`. -/
theorem C4_pin_format_rule_witness :
    ((∃ receipt amt nb na, (processPin db0 "TXN1" "9999" env0).1 =
        PinResult.paymentSuccess receipt amt nb na) ↔
      matchesPinPattern "9999") ∧
    (isValidPin "9999" = true ↔ matchesPinPattern "9999") ∧
    isValidPin "12345" = true ∧ isValidPin "123456" = true :=
  C4_pin_format_rule db0 "TXN1" "9999" env0 tx0 cust0 (by decide) rfl rfl
    (by decide) rfl

/-! ## Claim C9 -/

/-- **C9 counterexample.**  The claim that `formatPhoneNumber` "strips a
leading `+`" fails on the input `"+1"`: the leading `+` is only stripped
from inputs beginning with `+254`; on `"+1"` the country code is
prepended instead and the `+` is retained inside the output. -/
theorem C9_counterexample :
    formatPhoneNumber "+1" = "254+1" ∧
    formatPhoneNumber "+1" ≠ "1" ∧
    '+' ∈ (formatPhoneNumber "+1").data := by
  refine ⟨?_, ?_, ?_⟩ <;> decide

/-- **C9 (amended).**  `formatPhoneNumber` rewrites a leading `0` to the
country code; strips the leading `+` from an input beginning with `+254`
(only such inputs); passes through unchanged an input already beginning
with the country code `254`; and otherwise prepends the country code
(retaining any interior characters, including a non-`+254` leading `+`).
No output ever begins with `+`.  The function is a Lean function, hence
deterministic and pure. -/
theorem C9_formatPhoneNumber_amended :
    (∀ s : String, ['0'].isPrefixOf s.data = true →
      (formatPhoneNumber s).data = '2' :: '5' :: '4' :: s.data.drop 1) ∧
    (∀ s : String, ['2', '5', '4'].isPrefixOf s.data = true →
      formatPhoneNumber s = s) ∧
    (∀ s : String, ['+', '2', '5', '4'].isPrefixOf s.data = true →
      (formatPhoneNumber s).data = s.data.drop 1) ∧
    (∀ s : String, ['0'].isPrefixOf s.data = false →
      ['2', '5', '4'].isPrefixOf s.data = false →
      ['+', '2', '5', '4'].isPrefixOf s.data = false →
      (formatPhoneNumber s).data = '2' :: '5' :: '4' :: s.data) ∧
    (∀ s : String, (formatPhoneNumber s).data.head? ≠ some '+') := by
  refine ⟨?_, ?_, ?_, ?_, ?_⟩
  · intro s h
    obtain ⟨t, ht⟩ := List.isPrefixOf_iff_prefix.mp h
    show formatPhoneNumberL s.data = _
    rw [← ht]
    simp [formatPhoneNumberL, List.isPrefixOf]
  · intro s h
    exact String.ext (formatPhoneNumberL_of_prefix254 s.data h)
  · intro s h
    obtain ⟨t, ht⟩ := List.isPrefixOf_iff_prefix.mp h
    show formatPhoneNumberL s.data = _
    rw [← ht]
    simp [formatPhoneNumberL, List.isPrefixOf]
  · intro s h1 h2 h3
    show formatPhoneNumberL s.data = _
    simp [formatPhoneNumberL, h1, h2, h3]
  · intro s
    obtain ⟨t, ht⟩ :=
      List.isPrefixOf_iff_prefix.mp (formatPhoneNumberL_prefix254 s.data)
    show (formatPhoneNumberL s.data).head? ≠ some '+'
    rw [← ht]
    simp

/-- Witness for the amended C9 on concrete inputs. -/
theorem C9_formatPhoneNumber_amended_witness :
    (formatPhoneNumber "0712").data =
      '2' :: '5' :: '4' :: ("0712".data.drop 1) ∧
    formatPhoneNumber "254712" = "254712" ∧
    (formatPhoneNumber "+254712").data = "+254712".data.drop 1 ∧
    (formatPhoneNumber "712").data = '2' :: '5' :: '4' :: "712".data :=
  ⟨C9_formatPhoneNumber_amended.1 "0712" (by decide),
    C9_formatPhoneNumber_amended.2.1 "254712" (by decide),
    C9_formatPhoneNumber_amended.2.2.1 "+254712" (by decide),
    C9_formatPhoneNumber_amended.2.2.2.1 "712" (by decide) (by decide)
      (by decide)⟩

/-! ## Claim C10 -/

/-- **C10.**  `formatPhoneNumber` is idempotent: every output begins with
the country code `254`, and such strings are passed through unchanged. -/
theorem C10_formatPhoneNumber_idempotent (s : String) :
    formatPhoneNumber (formatPhoneNumber s) = formatPhoneNumber s ∧
    ['2', '5', '4'].isPrefixOf (formatPhoneNumber s).data = true :=
  ⟨String.ext (formatPhoneNumberL_idem s.data),
    formatPhoneNumberL_prefix254 s.data⟩

/-! ## Claim C5 -/

/-- **C5.**  With both request fields supplied, `processPin` fails with the
404 not-found response when no transaction bears the code; with the
invalid-state response, whose message embeds the lower-cased current
status, when the transaction is not `PENDING` (regardless of the attempt
counter, showing this check precedes the ceiling check); and with the
attempts-exceeded response—without the result depending on the submitted
code—when the transaction is `PENDING` with `pinAttempts` already at the
ceiling. -/
theorem C5_confirm_error_order (db : DB) (tid pin : String) (env : PinEnv)
    (htid : tid ≠ "") (hpin : pin ≠ "") :
    (db.transactions.find? (fun u => u.transactionId == tid) = none →
      processPin db tid pin env = (PinResult.notFound, db) ∧
      pinHttpStatus PinResult.notFound = 404) ∧
    (∀ t, db.transactions.find? (fun u => u.transactionId == tid) = some t →
      t.status ≠ Status.PENDING →
      processPin db tid pin env = (PinResult.invalidState t.status, db) ∧
      ∃ pre suf, pinResultMessage (PinResult.invalidState t.status) =
        pre ++ statusToLower t.status ++ suf) ∧
    (∀ t, db.transactions.find? (fun u => u.transactionId == tid) = some t →
      t.status = Status.PENDING → 3 ≤ t.pinAttempts →
      (processPin db tid pin env).1 = PinResult.attemptsExceeded ∧
      ∀ pin', pin' ≠ "" →
        processPin db tid pin env = processPin db tid pin' env) := by
  refine ⟨fun hf => ⟨processPin_notFound_eq db tid pin env htid hpin hf, rfl⟩,
    fun t hf hs =>
      ⟨processPin_invalidState_eq db tid pin env t htid hpin hf hs,
        "Transaction already ", "", by simp [pinResultMessage]⟩,
    fun t hf hs hatt => ⟨?_, fun pin' hpin' => ?_⟩⟩
  · rw [processPin_attemptsExceeded_eq db tid pin env t htid hpin hf hs hatt]
  · rw [processPin_attemptsExceeded_eq db tid pin env t htid hpin hf hs hatt,
      processPin_attemptsExceeded_eq db tid pin' env t htid hpin' hf hs hatt]

/-- A copy of `tx0` already at the attempt ceiling. -/
def tx3 : Transaction := { tx0 with pinAttempts := 3 }

/-- Store holding the at-ceiling pending transaction `tx3`. -/
def db3 : DB := { customers := [cust0], transactions := [tx3] }

/-- A successfully completed copy of `tx0`. -/
def txS : Transaction := { tx0 with status := Status.SUCCESS }

/-- Store holding the terminal transaction `txS`. -/
def dbS : DB := { customers := [cust0], transactions := [txS] }

/-- Witness for C5: the three error paths on concrete stores. -/
theorem C5_confirm_error_order_witness :
    (processPin db0 "TXN9" "1234" env0 = (PinResult.notFound, db0)) ∧
    (processPin dbS "TXN1" "1234" env0 =
      (PinResult.invalidState Status.SUCCESS, dbS)) ∧
    ((processPin db3 "TXN1" "1234" env0).1 = PinResult.attemptsExceeded) :=
  ⟨((C5_confirm_error_order db0 "TXN9" "1234" env0 (by decide)
      (by decide)).1 rfl).1,
    ((C5_confirm_error_order dbS "TXN1" "1234" env0 (by decide)
      (by decide)).2.1 txS rfl (by decide)).1,
    ((C5_confirm_error_order db3 "TXN1" "1234" env0 (by decide)
      (by decide)).2.2 tx3 rfl rfl (by decide)).1⟩

/-! ## Claim C1 -/

/-- The record update `processPin` applies to the found transaction on a
PIN mismatch. -/
def mismatchUpdate (now : Nat) (u : Transaction) : Transaction :=
  if 3 ≤ u.pinAttempts + 1 then
    { u with
      pinAttempts := u.pinAttempts + 1
      updatedAt := now
      status := Status.FAILED
      errorMessage := some "Maximum PIN attempts exceeded" }
  else
    { u with pinAttempts := u.pinAttempts + 1, updatedAt := now }

theorem processPin_mismatch_eq' (db : DB) (tid pin : String) (env : PinEnv)
    (t : Transaction) (c : Customer) (htid : tid ≠ "") (hpin : pin ≠ "")
    (hfind : db.transactions.find? (fun u => u.transactionId == tid) = some t)
    (hstatus : t.status = Status.PENDING) (hatt : t.pinAttempts < 3)
    (hcust : db.customers.find? (fun u => u.id == t.customerId) = some c)
    (hbad : isValidPin pin = false) :
    processPin db tid pin env =
      (PinResult.invalidPin (3 - (t.pinAttempts + 1)),
        { db with
          transactions :=
            updateFirst (fun u => u.transactionId == tid)
              (mismatchUpdate env.now) db.transactions }) := by
  rw [processPin_mismatch_eq db tid pin env t c htid hpin hfind hstatus hatt
    hcust hbad]
  rfl

theorem mismatchUpdate_low (now : Nat) (u : Transaction)
    (h : u.pinAttempts + 1 < 3) :
    mismatchUpdate now u =
      { u with pinAttempts := u.pinAttempts + 1, updatedAt := now } := by
  unfold mismatchUpdate
  rw [if_neg (by omega)]

theorem mismatchUpdate_top (now : Nat) (u : Transaction)
    (h : 3 ≤ u.pinAttempts + 1) :
    mismatchUpdate now u =
      { u with
        pinAttempts := u.pinAttempts + 1
        updatedAt := now
        status := Status.FAILED
        errorMessage := some "Maximum PIN attempts exceeded" } := by
  unfold mismatchUpdate
  rw [if_pos h]

/-- **C1.**  On a `PENDING` transaction with `pinAttempts < 3`, a confirm
call whose (nonempty) submitted code fails the format rule increments
`pinAttempts` by exactly one; if the new count reaches 3 the stored
transaction becomes `FAILED` with `errorMessage = "Maximum PIN attempts
exceeded"` in the same committed state, otherwise it stays `PENDING`; the
response reports `max 0 (3 - pinAttempts)` attempts remaining (with
`pinAttempts` the new count); the customers collection is untouched; and
three consecutive mismatched calls on a fresh transaction leave it
`FAILED` with `pinAttempts = 3` and the customers collection (hence the
referenced customer's balance, arrears and `totalRepayments`) unchanged. -/
theorem C1_pin_mismatch (db : DB) (tid pin : String) (env : PinEnv)
    (t : Transaction) (c : Customer) (htid : tid ≠ "") (hpin : pin ≠ "")
    (hfind : db.transactions.find? (fun u => u.transactionId == tid) = some t)
    (hstatus : t.status = Status.PENDING) (hatt : t.pinAttempts < 3)
    (hcust : db.customers.find? (fun u => u.id == t.customerId) = some c)
    (hbad : isValidPin pin = false) :
    ((processPin db tid pin env).1 =
      PinResult.invalidPin (3 - (t.pinAttempts + 1))) ∧
    ((3 - (t.pinAttempts + 1) : Nat) =
      Int.toNat (max 0 (3 - ((t.pinAttempts : Int) + 1)))) ∧
    (processPin db tid pin env).2.customers = db.customers ∧
    (∃ i, db.transactions.get? i = some t ∧
      (processPin db tid pin env).2.transactions =
        db.transactions.set i
          { t with
            pinAttempts := t.pinAttempts + 1
            updatedAt := env.now
            status :=
              if t.pinAttempts + 1 = 3 then Status.FAILED else Status.PENDING
            errorMessage :=
              if t.pinAttempts + 1 = 3 then
                some "Maximum PIN attempts exceeded"
              else t.errorMessage }) ∧
    (t.pinAttempts = 0 →
      ∀ pin2 pin3 env2 env3, pin2 ≠ "" → pin3 ≠ "" →
        isValidPin pin2 = false → isValidPin pin3 = false →
        ∃ tf,
          (processPin (processPin (processPin db tid pin env).2 tid pin2
              env2).2 tid pin3 env3).2.transactions.find?
            (fun u => u.transactionId == tid) = some tf ∧
          tf.status = Status.FAILED ∧ tf.pinAttempts = 3 ∧
          (processPin (processPin (processPin db tid pin env).2 tid pin2
              env2).2 tid pin3 env3).2.customers = db.customers) := by
  have hp : (fun u => u.transactionId == tid) t = true :=
    @List.find?_some _ (fun u => u.transactionId == tid) t _ hfind
  have h1 := processPin_mismatch_eq' db tid pin env t c htid hpin hfind
    hstatus hatt hcust hbad
  refine ⟨by rw [h1], by omega, by rw [h1], ?_, ?_⟩
  · obtain ⟨i, hg, hu⟩ :=
      find?_updateFirst (fun u => u.transactionId == tid)
        (mismatchUpdate env.now) db.transactions t hfind
    refine ⟨i, hg, ?_⟩
    rw [h1]
    show updateFirst _ _ db.transactions = _
    rw [hu]
    congr 1
    by_cases h3 : t.pinAttempts + 1 = 3
    · rw [mismatchUpdate_top env.now t (by omega), if_pos h3, if_pos h3]
    · rw [mismatchUpdate_low env.now t (by omega), if_neg h3, if_neg h3]
      cases t
      simp_all
  · intro h0 pin2 pin3 env2 env3 hp2 hp3 hb2 hb3
    have hm1 : mismatchUpdate env.now t = { t with pinAttempts := t.pinAttempts + 1, updatedAt := env.now } :=
      mismatchUpdate_low env.now t (by omega)
    have hfind1 : (processPin db tid pin env).2.transactions.find? (fun u => u.transactionId == tid) = some ({ t with pinAttempts := t.pinAttempts + 1, updatedAt := env.now } : Transaction) := by
      rw [h1, ← hm1]
      exact find?_updateFirst_self _ _ db.transactions t hfind
        (by rw [hm1]; exact hp)
    have hcust1 : (processPin db tid pin env).2.customers.find? (fun u => u.id == ({ t with pinAttempts := t.pinAttempts + 1, updatedAt := env.now } : Transaction).customerId) = some c := by
      rw [h1]; exact hcust
    have h2 := processPin_mismatch_eq' (processPin db tid pin env).2 tid pin2
      env2 _ c htid hp2 hfind1 hstatus (by simp <;> omega) hcust1 hb2
    have hm2 : mismatchUpdate env2.now ({ t with pinAttempts := t.pinAttempts + 1, updatedAt := env.now } : Transaction) = { t with pinAttempts := t.pinAttempts + 1 + 1, updatedAt := env2.now } := by
      rw [mismatchUpdate_low _ _ (by simp <;> omega)]
    have hfind2 : (processPin (processPin db tid pin env).2 tid pin2 env2).2.transactions.find? (fun u => u.transactionId == tid) = some ({ t with pinAttempts := t.pinAttempts + 1 + 1, updatedAt := env2.now } : Transaction) := by
      rw [h2, ← hm2]
      exact find?_updateFirst_self _ _ _ _ hfind1 (by rw [hm2]; exact hp)
    have hcust2 : (processPin (processPin db tid pin env).2 tid pin2 env2).2.customers.find? (fun u => u.id == ({ t with pinAttempts := t.pinAttempts + 1 + 1, updatedAt := env2.now } : Transaction).customerId) = some c := by
      rw [h2]; exact hcust1
    have h3 := processPin_mismatch_eq' (processPin (processPin db tid pin
      env).2 tid pin2 env2).2 tid pin3 env3 _ c htid hp3 hfind2 hstatus
      (by simp <;> omega) hcust2 hb3
    have hm3 : mismatchUpdate env3.now ({ t with pinAttempts := t.pinAttempts + 1 + 1, updatedAt := env2.now } : Transaction) = { t with pinAttempts := t.pinAttempts + 1 + 1 + 1, updatedAt := env3.now, status := Status.FAILED, errorMessage := some "Maximum PIN attempts exceeded" } := by
      rw [mismatchUpdate_top _ _ (by simp <;> omega)]
    refine ⟨{ t with pinAttempts := t.pinAttempts + 1 + 1 + 1, updatedAt := env3.now, status := Status.FAILED, errorMessage := some "Maximum PIN attempts exceeded" }, ?_, rfl,
      by simp [h0], ?_⟩
    · rw [h3, ← hm3]
      exact find?_updateFirst_self _ _ _ _ hfind2 (by rw [hm3]; exact hp)
    · rw [h3, h2, h1]

/-- Witness for C1: three consecutive mismatches on the concrete store. -/
theorem C1_pin_mismatch_witness :
    (processPin db0 "TXN1" "12" env0).1 = PinResult.invalidPin 2 ∧
    (processPin db0 "TXN1" "12" env0).2.customers = db0.customers ∧
    ∃ tf,
      (processPin (processPin (processPin db0 "TXN1" "12" env0).2 "TXN1"
          "12" env0).2 "TXN1" "12" env0).2.transactions.find?
        (fun u => u.transactionId == "TXN1") = some tf ∧
      tf.status = Status.FAILED ∧ tf.pinAttempts = 3 ∧
      (processPin (processPin (processPin db0 "TXN1" "12" env0).2 "TXN1"
          "12" env0).2 "TXN1" "12" env0).2.customers = db0.customers :=
  have h := C1_pin_mismatch db0 "TXN1" "12" env0 tx0 cust0 (by decide)
    (by decide) rfl rfl (by decide) rfl (by decide)
  ⟨h.1, h.2.2.1, h.2.2.2.2 rfl "12" "12" env0 env0 (by decide) (by decide)
    (by decide) (by decide)⟩

/-! ## Claim C2 -/

/-- **C2.**  On a `PENDING` transaction below the attempt ceiling, a
confirm call whose code matches the format rule returns the success
response and in one committed state sets the transaction to `SUCCESS`
with a non-empty receipt of shape `MC` + 6-digit date + 5-digit random
and a `processedAt` stamp, and sets the referenced customer's
`loanBalance`/`arrears` to the transaction's pre-computed snapshot,
adds the transaction's amount to `totalRepayments`, and stamps
`lastPaymentDate` — both the transaction write and the customer write
appear in the single returned store. -/
theorem C2_pin_success (db : DB) (tid pin : String) (env : PinEnv)
    (t : Transaction) (c : Customer) (htid : tid ≠ "") (hpin : pin ≠ "")
    (hfind : db.transactions.find? (fun u => u.transactionId == tid) = some t)
    (hstatus : t.status = Status.PENDING) (hatt : t.pinAttempts < 3)
    (hcust : db.customers.find? (fun u => u.id == t.customerId) = some c)
    (hgood : isValidPin pin = true) (henv : env.valid) :
    ∃ receipt,
      (processPin db tid pin env).1 =
        PinResult.paymentSuccess receipt t.amount t.loanBalanceAfter
          t.arrearsAfter ∧
      receipt ≠ "" ∧
      (∃ d r, receipt.data = 'M' :: 'C' :: (d ++ r) ∧ d.length = 6 ∧
        r.length = 5 ∧ (∀ ch ∈ d, ch.isDigit = true) ∧
        (∀ ch ∈ r, ch.isDigit = true)) ∧
      (∃ i, db.transactions.get? i = some t ∧
        (processPin db tid pin env).2.transactions =
          db.transactions.set i
            { t with
              status := Status.SUCCESS
              mpesaReceiptNumber := receipt
              processedAt := some env.now
              updatedAt := env.now
              pinAttempts := t.pinAttempts + 1 }) ∧
      (∃ j, db.customers.get? j = some c ∧
        (processPin db tid pin env).2.customers =
          db.customers.set j
            { c with
              loanBalance := t.loanBalanceAfter
              arrears := t.arrearsAfter
              totalRepayments := c.totalRepayments + t.amount
              lastPaymentDate := some env.now
              updatedAt := env.now }) := by
  obtain ⟨hy, hmo, hd, hr⟩ := henv
  have hs := processPin_success_eq db tid pin env t c htid hpin hfind hstatus
    hatt hcust hgood
  refine ⟨generateMpesaReceiptNumber env.year env.month env.day env.rand,
    by rw [hs], ?_, ?_, ?_, ?_⟩
  · obtain ⟨d, r, hdata, -, -, -, -⟩ :=
      generateMpesaReceiptNumber_format env.year env.month env.day env.rand
        hy hmo hd hr
    intro he
    rw [he] at hdata
    exact absurd hdata (by simp [String.data])
  · exact generateMpesaReceiptNumber_format env.year env.month env.day
      env.rand hy hmo hd hr
  · obtain ⟨i, hg, hu⟩ :=
      find?_updateFirst (fun u => u.transactionId == tid) _ db.transactions
        t hfind
    exact ⟨i, hg, by rw [hs]; exact hu⟩
  · obtain ⟨j, hg, hu⟩ :=
      find?_updateFirst (fun u => u.id == t.customerId) _ db.customers
        c hcust
    exact ⟨j, hg, by rw [hs]; exact hu⟩

/-- Witness for C2 on the concrete store `db0`. -/
theorem C2_pin_success_witness :
    ∃ receipt,
      (processPin db0 "TXN1" "1234" env0).1 =
        PinResult.paymentSuccess receipt tx0.amount tx0.loanBalanceAfter
          tx0.arrearsAfter ∧
      receipt ≠ "" ∧
      (∃ d r, receipt.data = 'M' :: 'C' :: (d ++ r) ∧ d.length = 6 ∧
        r.length = 5 ∧ (∀ ch ∈ d, ch.isDigit = true) ∧
        (∀ ch ∈ r, ch.isDigit = true)) ∧
      (∃ i, db0.transactions.get? i = some tx0 ∧
        (processPin db0 "TXN1" "1234" env0).2.transactions =
          db0.transactions.set i
            { tx0 with
              status := Status.SUCCESS
              mpesaReceiptNumber := receipt
              processedAt := some env0.now
              updatedAt := env0.now
              pinAttempts := tx0.pinAttempts + 1 }) ∧
      (∃ j, db0.customers.get? j = some cust0 ∧
        (processPin db0 "TXN1" "1234" env0).2.customers =
          db0.customers.set j
            { cust0 with
              loanBalance := tx0.loanBalanceAfter
              arrears := tx0.arrearsAfter
              totalRepayments := cust0.totalRepayments + tx0.amount
              lastPaymentDate := some env0.now
              updatedAt := env0.now }) :=
  C2_pin_success db0 "TXN1" "1234" env0 tx0 cust0 (by decide) (by decide)
    rfl rfl (by decide) rfl (by decide) (by decide)

/-! ## Claim C3 -/

/-- `processPin` never modifies a stored transaction that is not
`PENDING`: every such entry is bit-for-bit preserved at its position. -/
theorem processPin_preserves_settled (db : DB) (tid pin : String)
    (env : PinEnv) (j : Nat) (u : Transaction)
    (hj : db.transactions.get? j = some u)
    (hu : u.status ≠ Status.PENDING) :
    (processPin db tid pin env).2.transactions.get? j = some u := by
  unfold processPin
  split
  · exact hj
  · split
    · exact hj
    · rename_i t hfind
      split
      · exact hj
      · rename_i hstat
        rw [not_not] at hstat
        split
        · rcases updateFirst_get?_cases (fun v => v.transactionId == tid)
            _ db.transactions j u hj with h | ⟨-, -, h3⟩
          · exact h
          · rw [hfind] at h3
            injection h3 with h3
            exact absurd (h3 ▸ hstat) hu
        · split
          · exact hj
          · split
            · rcases updateFirst_get?_cases (fun v => v.transactionId == tid)
                _ db.transactions j u hj with h | ⟨-, -, h3⟩
              · exact h
              · rw [hfind] at h3
                injection h3 with h3
                exact absurd (h3 ▸ hstat) hu
            · rcases updateFirst_get?_cases (fun v => v.transactionId == tid)
                _ db.transactions j u hj with h | ⟨-, -, h3⟩
              · exact h
              · rw [hfind] at h3
                injection h3 with h3
                exact absurd (h3 ▸ hstat) hu

/-- `cancelTransaction` never modifies a stored transaction that is not
`PENDING`. -/
theorem cancelTransaction_preserves_settled (db : DB) (tid : String)
    (now : Nat) (j : Nat) (u : Transaction)
    (hj : db.transactions.get? j = some u)
    (hu : u.status ≠ Status.PENDING) :
    (cancelTransaction db tid now).2.transactions.get? j = some u := by
  unfold cancelTransaction
  split
  · exact hj
  · rcases updateFirst_get?_cases
      (fun v => v.transactionId == tid && decide (v.status = Status.PENDING))
      _ db.transactions j u hj with h | ⟨-, h2, -⟩
    · exact h
    · rw [Bool.and_eq_true, decide_eq_true_iff] at h2
      exact absurd h2.2 hu

/-- `initiateSTKPush` never modifies a stored transaction: it at most
appends a new one. -/
theorem initiateSTKPush_preserves_transactions (db : DB) (phone : String)
    (ap : Bool) (amt : Option ℚ) (desc : String) (env : InitEnv) (j : Nat)
    (u : Transaction) (hj : db.transactions.get? j = some u) :
    (initiateSTKPush db phone ap amt desc env).2.transactions.get? j =
      some u := by
  have hlen : j < db.transactions.length := (List.get?_eq_some.mp hj).1
  unfold initiateSTKPush
  split
  · exact hj
  · split
    · exact hj
    · split
      · exact hj
      · split
        · exact hj
        · split
          · exact hj
          · split
            · exact hj
            · show (db.transactions ++ _).get? j = some u
              rw [List.get?_append hlen]
              exact hj

/-- **C3 counterexample.**  `cancelTransaction` on a terminal (`SUCCESS`)
transaction is rejected with the 404 not-found response ("Pending
transaction not found or already processed"), not with the 400
invalid-state response the claim requires (the response `processPin`
produces for a terminal transaction). -/
theorem C3_counterexample :
    cancelTransaction dbS "TXN1" 9 = (CancelResult.pendingNotFound, dbS) ∧
    cancelHttpStatus (cancelTransaction dbS "TXN1" 9).1 = 404 ∧
    cancelResultMessage (cancelTransaction dbS "TXN1" 9).1 =
      "Pending transaction not found or already processed" ∧
    pinHttpStatus (PinResult.invalidState Status.SUCCESS) = 400 :=
  ⟨rfl, rfl, rfl, rfl⟩

/-- **C3 (amended).**  A transaction in a terminal state is protected:
`processPin` rejects it with the invalid-state response (HTTP 400,
message embedding the current status) leaving the store unchanged;
`cancelTransaction` rejects it with the 404 not-found response leaving
the store unchanged; and no operation (`processPin`,
`cancelTransaction`, `initiateSTKPush`) ever modifies a stored
non-`PENDING` transaction, so no transaction leaves a terminal state. -/
theorem C3_terminal_protection (db : DB) (tid pin : String) (env : PinEnv)
    (now : Nat) (t : Transaction) (htid : tid ≠ "") (hpin : pin ≠ "")
    (hfind : db.transactions.find? (fun u => u.transactionId == tid) = some t)
    (hterm : t.status ≠ Status.PENDING)
    (huniq : ∀ u ∈ db.transactions, u.transactionId = tid → u = t) :
    (processPin db tid pin env = (PinResult.invalidState t.status, db) ∧
      pinHttpStatus (PinResult.invalidState t.status) = 400 ∧
      ∃ pre suf, pinResultMessage (PinResult.invalidState t.status) =
        pre ++ statusToLower t.status ++ suf) ∧
    (cancelTransaction db tid now = (CancelResult.pendingNotFound, db) ∧
      cancelHttpStatus CancelResult.pendingNotFound = 404) ∧
    (∀ (db₂ : DB) (tid₂ pin₂ : String) (env₂ : PinEnv) (j : Nat)
        (u : Transaction),
      db₂.transactions.get? j = some u → u.status ≠ Status.PENDING →
      (processPin db₂ tid₂ pin₂ env₂).2.transactions.get? j = some u) ∧
    (∀ (db₂ : DB) (tid₂ : String) (now₂ j : Nat) (u : Transaction),
      db₂.transactions.get? j = some u → u.status ≠ Status.PENDING →
      (cancelTransaction db₂ tid₂ now₂).2.transactions.get? j = some u) ∧
    (∀ (db₂ : DB) (phone : String) (ap : Bool) (amt : Option ℚ)
        (desc : String) (env₂ : InitEnv) (j : Nat) (u : Transaction),
      db₂.transactions.get? j = some u →
      (initiateSTKPush db₂ phone ap amt desc env₂).2.transactions.get? j =
        some u) := by
  refine ⟨⟨processPin_invalidState_eq db tid pin env t htid hpin hfind hterm,
      rfl, "Transaction already ", "", by simp [pinResultMessage]⟩,
    ⟨?_, rfl⟩,
    processPin_preserves_settled,
    fun db₂ tid₂ now₂ j u => cancelTransaction_preserves_settled db₂ tid₂
      now₂ j u,
    fun db₂ phone ap amt desc env₂ j u =>
      initiateSTKPush_preserves_transactions db₂ phone ap amt desc env₂ j u⟩
  have hnone : db.transactions.find?
      (fun u => u.transactionId == tid &&
        decide (u.status = Status.PENDING)) = none := by
    rw [List.find?_eq_none]
    intro x hx
    rw [Bool.and_eq_true, beq_iff_eq, decide_eq_true_iff]
    rintro ⟨hid, hst⟩
    exact hterm ((huniq x hx hid) ▸ hst)
  unfold cancelTransaction
  rw [hnone]

/-- Witness for the amended C3 on a concrete successful transaction. -/
theorem C3_terminal_protection_witness :
    processPin dbS "TXN1" "1234" env0 =
      (PinResult.invalidState Status.SUCCESS, dbS) ∧
    cancelTransaction dbS "TXN1" 9 = (CancelResult.pendingNotFound, dbS) :=
  have h := C3_terminal_protection dbS "TXN1" "1234" env0 9 txS (by decide)
    (by decide) rfl (by decide) (by decide)
  ⟨h.1.1, h.2.1.1⟩

/-! ## Claim C8 -/

/-- A fully repaid (zero-balance) active customer. -/
def custZ : Customer := { cust0 with id := 2, loanBalance := 0, arrears := 0 }

/-- Store holding only the zero-balance customer. -/
def dbZ : DB := { customers := [custZ], transactions := [] }

/-- **C8 counterexample.**  For an active customer with `loanBalance = B`
where `B = 0`, `initiate(amount = B)` does not succeed: an amount of `0`
is rejected by the amount validation (and a JSON number `0` is already
falsy, tripping the missing-field check), so no transaction is created —
against the claim's "initiate with amount exactly B succeeds". -/
theorem C8_counterexample :
    custZ.isActive = true ∧ custZ.loanBalance = 0 ∧
    (initiateSTKPush dbZ "254712345678" true (some custZ.loanBalance)
        "Loan Repayment" initEnv0).1 = InitResult.invalidAmount ∧
    (initiateSTKPush dbZ "254712345678" false (some custZ.loanBalance)
        "Loan Repayment" initEnv0).1 = InitResult.missingInput ∧
    InitResult.isInitiated
      (initiateSTKPush dbZ "254712345678" true (some custZ.loanBalance)
        "Loan Repayment" initEnv0).1 = false :=
  ⟨rfl, rfl, rfl, rfl, rfl⟩

/-- **C8 (amended).**  For every active customer with
`loanBalance = B > 0` (found under a valid canonical phone),
`initiate(amount = B)` succeeds and the created transaction has
`loanBalanceAfter = 0`, while `initiate` with any amount strictly greater
than `B` fails with the balance error and leaves the store unchanged. -/
theorem C8_balance_boundary (db : DB) (phone desc : String) (env : InitEnv)
    (c : Customer) (hphone : phone ≠ "")
    (hvalid : isValidKenyanPhone (formatPhoneNumber phone) = true)
    (hfind : db.customers.find?
      (fun u => u.phoneNumber == formatPhoneNumber phone && u.isActive) =
        some c)
    (hpos : 0 < c.loanBalance) :
    (initiateSTKPush db phone true (some c.loanBalance) desc env =
      (InitResult.initiated
          (mkPendingTransaction c c.loanBalance desc
            (formatPhoneNumber phone) env),
        { db with
          transactions := db.transactions ++
            [mkPendingTransaction c c.loanBalance desc
              (formatPhoneNumber phone) env] }) ∧
      (mkPendingTransaction c c.loanBalance desc
        (formatPhoneNumber phone) env).loanBalanceAfter = 0) ∧
    (∀ a : ℚ, c.loanBalance < a →
      initiateSTKPush db phone true (some a) desc env =
        (InitResult.balanceError, db)) := by
  refine ⟨⟨?_, ?_⟩, fun a ha => ?_⟩
  · unfold initiateSTKPush
    rw [if_neg (by simp [hphone])]
    show (if c.loanBalance ≤ 0 then _ else _) = _
    rw [if_neg (not_le.mpr hpos), if_neg (by simp [hvalid]), hfind]
    show (if c.loanBalance < c.loanBalance then _ else _) = _
    rw [if_neg (lt_irrefl c.loanBalance)]
  · simp [mkPendingTransaction, calculateNewBalances]
  · unfold initiateSTKPush
    rw [if_neg (by simp [hphone])]
    show (if a ≤ 0 then _ else _) = _
    rw [if_neg (not_le.mpr (lt_trans hpos ha)), if_neg (by simp [hvalid]),
      hfind]
    show (if c.loanBalance < a then _ else _) = _
    rw [if_pos ha]

/-- Witness for the amended C8 on the concrete customer `cust0`. -/
theorem C8_balance_boundary_witness :
    (initiateSTKPush db0 "254712345678" true (some cust0.loanBalance)
        "Loan Repayment" initEnv0 =
      (InitResult.initiated
          (mkPendingTransaction cust0 cust0.loanBalance "Loan Repayment"
            (formatPhoneNumber "254712345678") initEnv0),
        { db0 with
          transactions := db0.transactions ++
            [mkPendingTransaction cust0 cust0.loanBalance "Loan Repayment"
              (formatPhoneNumber "254712345678") initEnv0] }) ∧
      (mkPendingTransaction cust0 cust0.loanBalance "Loan Repayment"
        (formatPhoneNumber "254712345678") initEnv0).loanBalanceAfter = 0) ∧
    (∀ a : ℚ, cust0.loanBalance < a →
      initiateSTKPush db0 "254712345678" true (some a) "Loan Repayment"
        initEnv0 = (InitResult.balanceError, db0)) :=
  C8_balance_boundary db0 "254712345678" "Loan Repayment" initEnv0 cust0
    (by decide) (by decide) rfl (by norm_num [cust0])
